import Mathlib

/-!
Verification of the Content Privacy Detection & Anonymization Engine
(`PrivacyFilter`) of the social-media-post repository.

The JavaScript class `PrivacyFilter` is embedded shallowly:

* JS strings are `List Char` (`Str`); `String.prototype.indexOf`,
  `substring`-based splicing, `Array.prototype.sort` (stable, comparator
  `(a, b) => b.position - a.position`), `Map.set` and `[...new Set(l)]`
  are modelled by executable Lean functions with the same semantics.
* The host regular-expression engine is not part of the repository, so the
  twelve registry patterns and the location-context pattern are abstracted
  as a `Matcher` oracle mapping a pattern id and a text to the list of
  global matches.  The organisation-name pattern
  `\b\w+\s+(Inc|LLC|...)\b` (flags `gi`), which is built inside
  `detectCompanyNames` itself, and the pure digit-run patterns
  `\b\d{8,17}\b` / `\b\d{9}\b` are additionally implemented as executable
  scanners so that concrete behaviour can be evaluated.
* The optional OpenAI oracle is abstracted as an `Option AIAnalysis`
  value: `none` models "oracle absent, failed or unparsable" (recovered
  inside `detectAIBasedIssues`), `some x` models a successfully parsed
  oracle response `x`.
* The facade `analyzeContent` wraps its pipeline in `try/catch`; the
  pipeline is modelled as a list of steps that may fail (`StepResult`),
  and the concrete five steps, which are total, are instances.
-/

namespace PrivacyFilterSpec

/-- JS strings, modelled as lists of characters. -/
abbrev Str := List Char

/-- JS `\w` character class: `[A-Za-z0-9_]`. -/
def isWordChar (c : Char) : Bool := c.isAlphanum || c == '_'

/-- JS `\s` character class, restricted to the ASCII whitespace actually
occurring in the inputs considered here. -/
def isSpaceChar (c : Char) : Bool := c == ' ' || c == '\t' || c == '\n' || c == '\r'

/-- First index (if any) at which `v` occurs as a contiguous block of `h`;
auxiliary to `strIndexOf`. -/
def idxOf? (h v : Str) : Option Nat :=
  match h with
  | [] => if v.isPrefixOf ([] : Str) then some 0 else none
  | c :: t => if v.isPrefixOf (c :: t) then some 0 else (idxOf? t v).map (· + 1)

/-- JS `String.prototype.indexOf`: index of the first occurrence of `v`
in `h`, `-1` if `v` does not occur. -/
def strIndexOf (h v : Str) : Int :=
  match idxOf? h v with
  | some i => Int.ofNat i
  | none => -1

/-- Auxiliary to `jsDedup`: `seen` holds the elements already kept. -/
def jsDedupAux {α : Type} [DecidableEq α] (seen : List α) : List α → List α
  | [] => []
  | a :: l => if a ∈ seen then jsDedupAux seen l else a :: jsDedupAux (a :: seen) l

/-- JS `[...new Set(l)]`: deduplication keeping the first occurrence of
each element, in encounter order. -/
def jsDedup {α : Type} [DecidableEq α] (l : List α) : List α :=
  jsDedupAux [] l

/-- JS `Map.prototype.set` on an insertion-ordered association list:
overwrites the value at an existing key in place, otherwise appends. -/
def jsMapSet (m : List (Str × Str)) (k v : Str) : List (Str × Str) :=
  if m.any (fun p => decide (p.1 = k)) then
    m.map (fun p => if p.1 = k then (k, v) else p)
  else
    m ++ [(k, v)]

/-- One detected issue, as pushed onto `analysis.detectedIssues`
(fields `type`, `value`, `riskLevel`, `position`, `detectionMethod`). -/
structure Issue where
  type : String
  value : Str
  riskLevel : String
  position : Int
  detectionMethod : String
deriving DecidableEq, Repr

/-- The `analysis` object built by `analyzeContent`; `error` is the
property added only in the `catch` branch (absent = `none`). -/
structure Analysis where
  originalContent : Str
  filteredContent : Str
  detectedIssues : List Issue
  riskLevel : String
  suggestions : List String
  anonymizationMap : List (Str × Str)
  error : Option String := none
deriving DecidableEq, Repr

/-- The fresh `analysis` object created at the top of `analyzeContent`. -/
def initialAnalysis (content : Str) : Analysis :=
  { originalContent := content
    filteredContent := content
    detectedIssues := []
    riskLevel := "low"
    suggestions := []
    anonymizationMap := []
    error := none }

/-- `calculateRiskLevel`: high if any HIGH issue, else high if more than
one MEDIUM issue, else medium if at least one MEDIUM issue, else low. -/
def calculateRiskLevel (detectedIssues : List Issue) : String :=
  let highRiskCount := (detectedIssues.filter (fun i => decide (i.riskLevel = "HIGH"))).length
  let mediumRiskCount := (detectedIssues.filter (fun i => decide (i.riskLevel = "MEDIUM"))).length
  if highRiskCount > 0 then "high"
  else if mediumRiskCount > 1 then "high"
  else if mediumRiskCount > 0 then "medium"
  else "low"

/-- Identifiers for the regular-expression literals of the engine: the
twelve entries of `this.patterns` used by `detectPatternBasedIssues`,
the unused `possibleNames` entry, and the location-context pattern built
inside `detectLocationContext`. -/
inductive PatternId where
  | email | phone | ssn | creditCard
  | bankAccount | routingNumber | currency
  | address | zipCode | coordinates
  | ipAddress | apiKey
  | possibleNames
  | locationPattern
deriving DecidableEq, Repr

/-- The pattern registry `this.patterns` (the location-context pattern is
not part of it). -/
def patternsRegistry : List PatternId :=
  [.email, .phone, .ssn, .creditCard, .bankAccount, .routingNumber,
   .currency, .address, .zipCode, .coordinates, .ipAddress, .apiKey,
   .possibleNames]

/-- Abstraction of the host regex engine: the list of global matches
(`text.match(pattern)`, `[]` for `null`) of the given pattern literal
against the given text. -/
abbrev Matcher : Type := PatternId → Str → List Str

/-- Executable scanner for the digit-run patterns `\b\d{lo,hi}\b` (flag
`g`), i.e. `bankAccount` with `lo = 8, hi = 17` and `routingNumber` with
`lo = hi = 9`.  Since digits are word characters, such a pattern matches
exactly the maximal digit runs whose length lies in `[lo, hi]` and whose
neighbours on both sides are non-word characters (or the string ends);
`prevW` records whether the preceding character is a word character. -/
def digScan (lo hi : Nat) : Nat → Bool → Str → List Str
  | 0, _, _ => []
  | _, _, [] => []
  | fuel + 1, prevW, c :: rest =>
    if c.isDigit then
      let run := (c :: rest).takeWhile Char.isDigit
      let after := (c :: rest).dropWhile Char.isDigit
      let okAfter := match after with
        | [] => true
        | a :: _ => !isWordChar a
      if !prevW && lo ≤ run.length && run.length ≤ hi && okAfter then
        run :: digScan lo hi fuel true after
      else
        digScan lo hi fuel true after
    else
      digScan lo hi fuel (isWordChar c) rest

/-- Global matches of `\b\d{lo,hi}\b` on `content`. -/
def digitRunMatches (lo hi : Nat) (content : Str) : List Str :=
  digScan lo hi (content.length + 1) false content

/-- `this.companyIndicators`, in source order. -/
def companyIndicators : List Str :=
  ["Inc".data, "LLC".data, "Corp".data, "Corporation".data, "Company".data,
   "Co".data, "Ltd".data, "Limited".data, "Partners".data, "Associates".data,
   "Group".data, "Holdings".data, "Enterprises".data, "Solutions".data,
   "Technologies".data, "Tech".data, "Systems".data, "Services".data,
   "Consulting".data]

/-- Case-insensitive test that `a` occurs at the start of `b`
(ASCII folding, the behaviour of the regex flag `i` on these letters). -/
def ciPrefix : Str → Str → Bool
  | [], _ => true
  | _ :: _, [] => false
  | a :: as, b :: bs => a.toLower == b.toLower && ciPrefix as bs

/-- Case-insensitive equality of two character lists. -/
def ciEq : Str → Str → Bool
  | [], [] => true
  | [], _ :: _ => false
  | _ :: _, [] => false
  | a :: as, b :: bs => a.toLower == b.toLower && ciEq as bs

/-- Try the alternation `(Inc|LLC|...)\b` of the company pattern at the
start of `l`, in source order of the alternatives; on success return the
matched characters of `l` (preserving their original case). -/
def tryIndicators (inds : List Str) (l : Str) : Option Str :=
  match inds with
  | [] => none
  | ind :: rest =>
    let okAfter := match l.drop ind.length with
      | [] => true
      | a :: _ => !isWordChar a
    if ciPrefix ind l && okAfter then some (l.take ind.length)
    else tryIndicators rest l

/-- Try the company pattern `\b\w+\s+(Inc|...)\b` (flags `gi`) at the
start of `l` (the word-boundary before `l` is checked by the caller):
a maximal non-empty run of word characters, a maximal non-empty run of
whitespace, then one of the indicators followed by a word boundary.
Returns the matched characters and their count. -/
def tryCompany (l : Str) : Option (Str × Nat) :=
  let w := l.takeWhile isWordChar
  let r1 := l.dropWhile isWordChar
  if w.isEmpty then none
  else
    let s := r1.takeWhile isSpaceChar
    let r2 := r1.dropWhile isSpaceChar
    if s.isEmpty then none
    else
      match tryIndicators companyIndicators r2 with
      | some ind => some (w ++ s ++ ind, w.length + s.length + ind.length)
      | none => none

/-- Scanner for the global company pattern: at each position with a word
boundary before a word character, try `tryCompany`; on success emit the
match and resume after it, otherwise advance one character. -/
def compScan : Nat → Bool → Str → List Str
  | 0, _, _ => []
  | _, _, [] => []
  | fuel + 1, prevW, c :: rest =>
    if !prevW && isWordChar c then
      match tryCompany (c :: rest) with
      | some (m, k) => m :: compScan fuel true ((c :: rest).drop k)
      | none => compScan fuel (isWordChar c) rest
    else
      compScan fuel (isWordChar c) rest

/-- Global matches of the pattern built in `detectCompanyNames` from
`this.companyIndicators`. -/
def companyMatches (content : Str) : List Str :=
  compScan (content.length + 1) false content

/-- `detectAndAdd(content, pattern, type, riskLevel, analysis)`: for each
match, push an issue whose `position` is `content.indexOf(match)` (the
first occurrence of the literal matched string, not the engine's match
position).  Here only the list of pushed issues is returned; callers
append it to `detectedIssues`. -/
def detectAndAdd (content : Str) (ms : List Str) (type riskLevel : String) : List Issue :=
  ms.map (fun m =>
    { type := type
      value := m
      riskLevel := riskLevel
      position := strIndexOf content m
      detectionMethod := "pattern" })

/-- Issues pushed by `detectCompanyNames` (type `companyName`, severity
`MEDIUM`, source `pattern`, literal-indexOf offsets). -/
def companyFindings (content : Str) : List Issue :=
  (companyMatches content).map (fun m =>
    { type := "companyName"
      value := m
      riskLevel := "MEDIUM"
      position := strIndexOf content m
      detectionMethod := "pattern" })

/-- Issues pushed by `detectLocationContext` (type `locationContext`,
severity `MEDIUM`, source `pattern`). -/
def locationFindings (M : Matcher) (content : Str) : List Issue :=
  (M .locationPattern content).map (fun m =>
    { type := "locationContext"
      value := m
      riskLevel := "MEDIUM"
      position := strIndexOf content m
      detectionMethod := "pattern" })

/-- All issues pushed by `detectPatternBasedIssues`, in push order: the
twelve `detectAndAdd` calls, then `detectCompanyNames`, then
`detectLocationContext`.  The registry entry `possibleNames` is never
consulted. -/
def patternFindings (M : Matcher) (content : Str) : List Issue :=
  detectAndAdd content (M .email content) "email" "HIGH"
  ++ detectAndAdd content (M .phone content) "phone" "HIGH"
  ++ detectAndAdd content (M .ssn content) "ssn" "HIGH"
  ++ detectAndAdd content (M .creditCard content) "creditCard" "HIGH"
  ++ detectAndAdd content (M .bankAccount content) "bankAccount" "HIGH"
  ++ detectAndAdd content (M .routingNumber content) "routingNumber" "HIGH"
  ++ detectAndAdd content (M .currency content) "currency" "MEDIUM"
  ++ detectAndAdd content (M .address content) "address" "MEDIUM"
  ++ detectAndAdd content (M .zipCode content) "zipCode" "MEDIUM"
  ++ detectAndAdd content (M .coordinates content) "coordinates" "HIGH"
  ++ detectAndAdd content (M .ipAddress content) "ipAddress" "MEDIUM"
  ++ detectAndAdd content (M .apiKey content) "apiKey" "HIGH"
  ++ companyFindings content
  ++ locationFindings M content

/-- The parsed JSON response of the AI oracle, as consumed by
`addAIDetectedIssues` (the unused `riskAssessment` and `suggestions`
fields are omitted; an absent array field is the empty list). -/
structure AIAnalysis where
  personalNames : List Str := []
  companyNames : List Str := []
  financialInfo : List Str := []
  locations : List Str := []
  confidentialInfo : List Str := []
deriving DecidableEq, Repr

/-- Issues pushed by `addAIDetectedIssues`, in push order; positions are
`analysis.originalContent.indexOf(value)`, which is `-1` when the
oracle-supplied value does not occur verbatim in the text. -/
def aiFindings (content : Str) (ai : AIAnalysis) : List Issue :=
  ai.personalNames.map (fun name =>
    { type := "personalName", value := name, riskLevel := "HIGH"
      position := strIndexOf content name, detectionMethod := "ai" })
  ++ ai.companyNames.map (fun company =>
    { type := "companyName", value := company, riskLevel := "MEDIUM"
      position := strIndexOf content company, detectionMethod := "ai" })
  ++ ai.financialInfo.map (fun info =>
    { type := "financialInfo", value := info, riskLevel := "HIGH"
      position := strIndexOf content info, detectionMethod := "ai" })
  ++ ai.locations.map (fun location =>
    { type := "location", value := location, riskLevel := "MEDIUM"
      position := strIndexOf content location, detectionMethod := "ai" })
  ++ ai.confidentialInfo.map (fun info =>
    { type := "confidentialInfo", value := info, riskLevel := "HIGH"
      position := strIndexOf content info, detectionMethod := "ai" })

/-- `getReplacementText`: the static category-to-placeholder table, with
the generic fallback `[REDACTED]`. -/
def getReplacementText (type : String) : Str :=
  if type = "email" then "[EMAIL_REDACTED]".data
  else if type = "phone" then "[PHONE_REDACTED]".data
  else if type = "ssn" then "[SSN_REDACTED]".data
  else if type = "creditCard" then "[CARD_REDACTED]".data
  else if type = "bankAccount" then "[ACCOUNT_REDACTED]".data
  else if type = "routingNumber" then "[ROUTING_REDACTED]".data
  else if type = "currency" then "[AMOUNT_REDACTED]".data
  else if type = "address" then "[ADDRESS_REDACTED]".data
  else if type = "zipCode" then "[ZIP_REDACTED]".data
  else if type = "coordinates" then "[COORDINATES_REDACTED]".data
  else if type = "ipAddress" then "[IP_REDACTED]".data
  else if type = "apiKey" then "[API_KEY_REDACTED]".data
  else if type = "personalName" then "[NAME_REDACTED]".data
  else if type = "companyName" then "[COMPANY_REDACTED]".data
  else if type = "financialInfo" then "[FINANCIAL_INFO_REDACTED]".data
  else if type = "location" then "[LOCATION_REDACTED]".data
  else if type = "locationContext" then "[LOCATION_CONTEXT_REDACTED]".data
  else if type = "confidentialInfo" then "[CONFIDENTIAL_REDACTED]".data
  else "[REDACTED]".data

/-- Stable insertion of an issue into a list sorted by descending
`position`: among equal positions the inserted (earlier-encountered)
issue comes first. -/
def insDesc (i : Issue) : List Issue → List Issue
  | [] => [i]
  | j :: l => if j.position ≤ i.position then i :: j :: l else j :: insDesc i l

/-- `[...issues].sort((a, b) => b.position - a.position)`: stable sort by
descending `position` (ES2019 requires `Array.prototype.sort` to be
stable; this insertion sort produces the same, unique, stable result). -/
def sortDesc : List Issue → List Issue
  | [] => []
  | i :: l => insDesc i (sortDesc l)

/-- One replacement step of `applyFilters`:
`text.substring(0, pos) + placeholder + text.substring(pos + len)`. -/
def applyOne (t : Str) (i : Issue) : Str :=
  t.take i.position.toNat ++ getReplacementText i.type ++ t.drop (i.position.toNat + i.value.length)

/-- `applyFilters(content, analysis)`: sort a copy of `detectedIssues` by
descending position; apply each issue with `position >= 0` to the running
text and record `anonymizationMap.set(value, placeholder)`; issues with
negative position are skipped.  Returns the filtered text and the map. -/
def applyFilters (content : Str) (issues : List Issue) : Str × List (Str × Str) :=
  (sortDesc issues).foldl
    (fun acc i =>
      if 0 ≤ i.position then
        (applyOne acc.1 i, jsMapSet acc.2 i.value (getReplacementText i.type))
      else acc)
    (content, [])

/-- The static category-to-advice table of `generateSuggestions`
(note: `routingNumber`, `currency`, `zipCode` and `locationContext`
have no entry). -/
def suggestionMap (type : String) : Option String :=
  if type = "email" then some "Consider using a generic contact form instead of exposing email addresses"
  else if type = "phone" then some "Use a business phone number or contact form instead of personal numbers"
  else if type = "ssn" then some "Never share Social Security Numbers publicly"
  else if type = "creditCard" then some "Remove all payment card information from public posts"
  else if type = "bankAccount" then some "Banking details should never be shared publicly"
  else if type = "personalName" then some "Consider using first names only or role titles instead of full names"
  else if type = "companyName" then some "Evaluate if specific company names need to be mentioned publicly"
  else if type = "financialInfo" then some "Remove specific financial figures or use ranges instead"
  else if type = "location" then some "Consider using city/state instead of specific addresses"
  else if type = "address" then some "Use general location references instead of specific addresses"
  else if type = "confidentialInfo" then some "Remove any internal or confidential project information"
  else if type = "coordinates" then some "Remove GPS coordinates and location data"
  else if type = "ipAddress" then some "Remove IP addresses and technical identifiers"
  else if type = "apiKey" then some "Never expose API keys or authentication tokens"
  else none

/-- The two warnings appended when the aggregate risk is high. -/
def highRiskWarnings : List String :=
  ["HIGH RISK: This content contains sensitive information that should not be posted publicly",
   "Consider rewriting the content to remove all personal identifiers"]

/-- The two warnings appended when the aggregate risk is medium. -/
def mediumRiskWarnings : List String :=
  ["MEDIUM RISK: Review the content for potentially sensitive information",
   "Consider using more general terms instead of specific details"]

/-- `generateSuggestions(analysis)`: one advisory per distinct issue type
that has a `suggestionMap` entry (types in first-seen order), then the
risk-level warnings, then `[...new Set(...)]` deduplication. -/
def generateSuggestions (a : Analysis) : List String :=
  let issueTypes := jsDedup (a.detectedIssues.map (fun i => i.type))
  let fromTypes := issueTypes.filterMap suggestionMap
  let withRisk := fromTypes ++
    (if a.riskLevel = "high" then highRiskWarnings
     else if a.riskLevel = "medium" then mediumRiskWarnings
     else [])
  jsDedup withRisk

/-- Result of one pipeline step inside the `try` block of
`analyzeContent`: either the updated analysis, or a thrown error together
with the (partially mutated) analysis object visible to `catch`. -/
inductive StepResult where
  | ok (a : Analysis)
  | err (msg : String) (a : Analysis)
deriving DecidableEq, Repr

/-- A pipeline step: total JS code is a step that always returns `ok`. -/
def Step : Type := Analysis → StepResult

/-- Run the steps of the `try` block in order, stopping at the first
thrown error. -/
def runSteps (steps : List Step) (a : Analysis) : StepResult :=
  match steps with
  | [] => .ok a
  | s :: rest =>
    match s a with
    | .ok a2 => runSteps rest a2
    | .err msg a2 => .err msg a2

/-- The `try/catch` shell of `analyzeContent`: on success the analysis is
returned as is; a thrown error is caught and
`{ ...analysis, error: 'Privacy analysis failed', riskLevel: HIGH }` is
returned instead of propagating. -/
def analyzeWith (steps : List Step) (content : Str) : Analysis :=
  match runSteps steps (initialAnalysis content) with
  | .ok a => a
  | .err _ a => { a with error := some "Privacy analysis failed", riskLevel := "high" }

/-- Step 1: `detectPatternBasedIssues` (always runs, appends in place). -/
def patternStep (M : Matcher) : Step := fun a =>
  .ok { a with detectedIssues := a.detectedIssues ++ patternFindings M a.originalContent }

/-- Step 2: `detectAIBasedIssues` — its own `try/catch` makes it total:
`none` (oracle absent, call failed or response unparsable) leaves the
analysis unchanged, `some x` appends `addAIDetectedIssues`. -/
def aiStep (ai : Option AIAnalysis) : Step := fun a =>
  match ai with
  | none => .ok a
  | some x => .ok { a with detectedIssues := a.detectedIssues ++ aiFindings a.originalContent x }

/-- Step 3: `analysis.filteredContent = applyFilters(content, analysis)`
(which also fills `anonymizationMap`). -/
def filterStep : Step := fun a =>
  .ok { a with
          filteredContent := (applyFilters a.originalContent a.detectedIssues).1
          anonymizationMap := (applyFilters a.originalContent a.detectedIssues).2 }

/-- Step 4: `analysis.riskLevel = calculateRiskLevel(...)`. -/
def riskStep : Step := fun a =>
  .ok { a with riskLevel := calculateRiskLevel a.detectedIssues }

/-- Step 5: `analysis.suggestions = generateSuggestions(analysis)`. -/
def suggestStep : Step := fun a =>
  .ok { a with suggestions := generateSuggestions a }

/-- The five steps of `analyzeContent` in source order. -/
def analysisSteps (M : Matcher) (ai : Option AIAnalysis) : List Step :=
  [patternStep M, aiStep ai, filterStep, riskStep, suggestStep]

/-- `analyzeContent(content)`, with the host regex engine `M` and the
parsed oracle response `ai` as explicit inputs. -/
def analyzeContent (M : Matcher) (ai : Option AIAnalysis) (content : Str) : Analysis :=
  analyzeWith (analysisSteps M ai) content

/-- The options object of `filterContent`; `enablePrivacyFilter` models
`options.enablePrivacyFilter !== false` (absent = `true`),
`forcePrivacyFilter` models the truthiness of `options.forcePrivacyFilter`
(absent = `false`). -/
structure FilterOptions where
  enablePrivacyFilter : Bool := true
  forcePrivacyFilter : Bool := false
deriving DecidableEq, Repr

/-- The value returned by `filterContent`. -/
structure FilterResult where
  filteredContent : Str
  privacyAnalysis : Option Analysis
  privacyFilterEnabled : Bool
deriving DecidableEq, Repr

/-- `filterContent(content, options)`; `envEnabled` models
`process.env.ENABLE_PRIVACY_FILTER === 'true'`. -/
def filterContent (envEnabled : Bool) (M : Matcher) (ai : Option AIAnalysis)
    (content : Str) (options : FilterOptions) : FilterResult :=
  let enablePrivacyFilter :=
    options.enablePrivacyFilter && (envEnabled || options.forcePrivacyFilter)
  if enablePrivacyFilter then
    let analysis := analyzeContent M ai content
    { filteredContent := analysis.filteredContent
      privacyAnalysis := some analysis
      privacyFilterEnabled := true }
  else
    { filteredContent := content
      privacyAnalysis := none
      privacyFilterEnabled := false }

/-- `isContentSafe(content)`: whether the analyzed risk level is low. -/
def isContentSafe (M : Matcher) (ai : Option AIAnalysis) (content : Str) : Bool :=
  (analyzeContent M ai content).riskLevel == "low"

/-!  Spec-side definitions, written from the wording of the specification
and compared with the source-side definitions above. -/

/-- Modelled from the spec (§4.5): HIGH if any finding has severity HIGH;
else HIGH if more than one MEDIUM; else MEDIUM if exactly one MEDIUM;
else LOW. -/
def riskSpec (findings : List Issue) : String :=
  if findings.any (fun f => decide (f.riskLevel = "HIGH")) then "high"
  else if 1 < findings.countP (fun f => decide (f.riskLevel = "MEDIUM")) then "high"
  else if findings.countP (fun f => decide (f.riskLevel = "MEDIUM")) = 1 then "medium"
  else "low"

/-- Modelled from the spec (§4.4): sort the findings with `offset ≥ 0` in
descending offset order, apply each replacement as
`text[:offset] ++ placeholder ++ text[offset + len(value):]`, and record
`redaction_map[value] = placeholder` for every applied replacement;
findings with negative offset never participate. -/
def redactionSpec (content : Str) (findings : List Issue) : Str × List (Str × Str) :=
  (sortDesc (findings.filter (fun i => decide (0 ≤ i.position)))).foldl
    (fun acc i => (applyOne acc.1 i, jsMapSet acc.2 i.value (getReplacementText i.type)))
    (content, [])

/-!  Helper lemmas about the string primitives. -/

theorem isPre_iff_take (v w : Str) : v.isPrefixOf w = true ↔ w.take v.length = v := by
  induction v generalizing w with
  | nil => simp [List.isPrefixOf]
  | cons a as ih =>
    cases w with
    | nil => simp [List.isPrefixOf]
    | cons b bs =>
      simp [List.isPrefixOf, ih bs, @eq_comm _ a b, and_comm]

theorem isPre_take (n : Nat) (y : Str) : (y.take n).isPrefixOf y = true := by
  induction y generalizing n with
  | nil => simp [List.isPrefixOf]
  | cons b bs ih =>
    cases n with
    | zero => simp [List.isPrefixOf]
    | succ k => simpa [List.isPrefixOf] using ih k

theorem isPre_append_left (x : Str) {a b : Str} (h : a.isPrefixOf b = true) :
    (x ++ a).isPrefixOf (x ++ b) = true := by
  induction x with
  | nil => simpa using h
  | cons c cs ih => simpa [List.isPrefixOf] using ih

theorem idxOf?_sound {h v : Str} {i : Nat} (hfind : idxOf? h v = some i) :
    v.isPrefixOf (h.drop i) = true := by
  induction h generalizing i with
  | nil =>
    rw [idxOf?] at hfind
    by_cases hp : v.isPrefixOf ([] : Str) = true
    · rw [if_pos hp] at hfind
      cases hfind
      simpa using hp
    · rw [if_neg hp] at hfind
      cases hfind
  | cons c t ih =>
    rw [idxOf?] at hfind
    by_cases hp : v.isPrefixOf (c :: t) = true
    · rw [if_pos hp] at hfind
      cases hfind
      simpa using hp
    · rw [if_neg hp] at hfind
      cases hidx2 : idxOf? t v with
      | none => rw [hidx2] at hfind; cases hfind
      | some j =>
        rw [hidx2] at hfind
        simp only [Option.map_some', Option.some.injEq] at hfind
        subst hfind
        simpa [List.drop_succ_cons] using ih hidx2

theorem idxOf?_complete {h v : Str} {k : Nat} (hk : v.isPrefixOf (h.drop k) = true) :
    ∃ j, idxOf? h v = some j := by
  induction h generalizing k with
  | nil =>
    refine ⟨0, ?_⟩
    rw [idxOf?]
    rw [List.drop_nil] at hk
    rw [if_pos hk]
  | cons c t ih =>
    rw [idxOf?]
    by_cases hp : v.isPrefixOf (c :: t) = true
    · exact ⟨0, by rw [if_pos hp]⟩
    · cases k with
      | zero => rw [List.drop_zero] at hk; exact absurd hk hp
      | succ m =>
        rw [List.drop_succ_cons] at hk
        obtain ⟨j, hj⟩ := ih hk
        exact ⟨j + 1, by rw [if_neg hp, hj]; rfl⟩

theorem strIndexOf_nonneg_of_found {h v : Str} (hfound : ∃ k, v.isPrefixOf (h.drop k) = true) :
    0 ≤ strIndexOf h v := by
  obtain ⟨k, hk⟩ := hfound
  obtain ⟨j, hj⟩ := idxOf?_complete hk
  simp [strIndexOf, hj]

theorem strIndexOf_nonneg_take {h v : Str} (hpos : 0 ≤ strIndexOf h v) :
    (h.drop (strIndexOf h v).toNat).take v.length = v := by
  cases hidx : idxOf? h v with
  | none => simp [strIndexOf, hidx] at hpos
  | some i =>
    have hsound := idxOf?_sound hidx
    rw [isPre_iff_take] at hsound
    simpa [strIndexOf, hidx] using hsound

theorem jsDedupAux_mem {α : Type} [DecidableEq α] (x : α) :
    ∀ (l seen : List α), x ∈ jsDedupAux seen l ↔ x ∈ l ∧ x ∉ seen := by
  intro l
  induction l with
  | nil => intro seen; simp [jsDedupAux]
  | cons a t ih =>
    intro seen
    rw [jsDedupAux]
    by_cases ha : a ∈ seen
    · rw [if_pos ha, ih seen, List.mem_cons]
      constructor
      · rintro ⟨h1, h2⟩; exact ⟨Or.inr h1, h2⟩
      · rintro ⟨h1 | h1, h2⟩
        · exact absurd (h1 ▸ ha) h2
        · exact ⟨h1, h2⟩
    · rw [if_neg ha, List.mem_cons, ih (a :: seen), List.mem_cons, List.mem_cons]
      by_cases hx : x = a
      · subst hx; simp [ha]
      · simp [hx]

theorem jsDedup_mem {α : Type} [DecidableEq α] (l : List α) (x : α) :
    x ∈ jsDedup l ↔ x ∈ l := by
  rw [jsDedup, jsDedupAux_mem]
  simp

theorem jsDedupAux_sublist {α : Type} [DecidableEq α] :
    ∀ (l seen : List α), (jsDedupAux seen l).Sublist l := by
  intro l
  induction l with
  | nil => intro seen; simp [jsDedupAux]
  | cons a t ih =>
    intro seen
    rw [jsDedupAux]
    by_cases ha : a ∈ seen
    · rw [if_pos ha]; exact (ih seen).cons a
    · rw [if_neg ha]; exact (ih (a :: seen)).cons₂ a

theorem jsDedup_sublist {α : Type} [DecidableEq α] (l : List α) :
    (jsDedup l).Sublist l :=
  jsDedupAux_sublist l []

theorem jsDedupAux_nodup {α : Type} [DecidableEq α] :
    ∀ (l seen : List α), (jsDedupAux seen l).Nodup := by
  intro l
  induction l with
  | nil => intro seen; simp [jsDedupAux]
  | cons a t ih =>
    intro seen
    rw [jsDedupAux]
    by_cases ha : a ∈ seen
    · rw [if_pos ha]; exact ih seen
    · rw [if_neg ha]
      refine List.Nodup.cons ?_ (ih (a :: seen))
      intro hmem
      exact ((jsDedupAux_mem a t (a :: seen)).mp hmem).2 (List.mem_cons_self a seen)

theorem jsDedup_nodup {α : Type} [DecidableEq α] (l : List α) :
    (jsDedup l).Nodup :=
  jsDedupAux_nodup l []

/-!  Lemmas about the stable descending sort of `applyFilters`. -/

/-- Sortedness by descending position. -/
def SortedD (l : List Issue) : Prop :=
  l.Pairwise (fun a b => b.position ≤ a.position)

theorem insDesc_mem (x : Issue) (l : List Issue) (b : Issue) :
    b ∈ insDesc x l ↔ b = x ∨ b ∈ l := by
  induction l with
  | nil => simp [insDesc]
  | cons j t ih =>
    rw [insDesc]
    by_cases hle : j.position ≤ x.position
    · simp [hle]
    · rw [if_neg hle]
      simp [ih]
      tauto

theorem insDesc_pairwise (x : Issue) {l : List Issue} (hl : SortedD l) :
    SortedD (insDesc x l) := by
  induction l with
  | nil => simp [insDesc, SortedD]
  | cons j t ih =>
    rw [insDesc]
    rcases hl with - | ⟨hj, ht⟩
    by_cases hle : j.position ≤ x.position
    · rw [if_pos hle]
      refine List.Pairwise.cons ?_ (List.Pairwise.cons hj ht)
      intro b hb
      rcases List.mem_cons.mp hb with rfl | hb2
      · exact hle
      · exact le_trans (hj b hb2) hle
    · rw [if_neg hle]
      refine List.Pairwise.cons ?_ (ih ht)
      intro b hb
      rcases (insDesc_mem x t b).mp hb with rfl | hb
      · exact le_of_not_le hle
      · exact hj b hb

theorem sortDesc_pairwise (l : List Issue) : SortedD (sortDesc l) := by
  induction l with
  | nil => exact List.Pairwise.nil
  | cons x t ih => exact insDesc_pairwise x ih

theorem insDesc_eq_cons {x : Issue} {l : List Issue}
    (h : ∀ b ∈ l, b.position ≤ x.position) : insDesc x l = x :: l := by
  cases l with
  | nil => rfl
  | cons j t => rw [insDesc, if_pos (h j (List.mem_cons_self j t))]

theorem filter_insDesc (P : Issue → Bool) (x : Issue) {l : List Issue}
    (hl : SortedD l) :
    (insDesc x l).filter P = if P x then insDesc x (l.filter P) else l.filter P := by
  induction l with
  | nil =>
    rw [insDesc]
    by_cases hp : P x
    · simp [hp, insDesc]
    · simp [hp]
  | cons j t ih =>
    rcases hl with - | ⟨hj, ht⟩
    rw [insDesc]
    by_cases hle : j.position ≤ x.position
    · rw [if_pos hle]
      by_cases hp : P x
      · rw [if_pos hp]
        have hmem : ∀ b ∈ (j :: t).filter P, b.position ≤ x.position := by
          intro b hb
          rcases List.mem_filter.mp hb with ⟨hb2, -⟩
          rcases List.mem_cons.mp hb2 with rfl | hb3
          · exact hle
          · exact le_trans (hj b hb3) hle
        rw [insDesc_eq_cons hmem]
        simp [List.filter, hp]
      · rw [if_neg hp]
        simp [List.filter, hp]
    · rw [if_neg hle]
      by_cases hpj : P j
      · rw [List.filter_cons_of_pos hpj, List.filter_cons_of_pos hpj, ih ht]
        by_cases hp : P x
        · rw [if_pos hp, if_pos hp, insDesc, if_neg hle]
        · rw [if_neg hp, if_neg hp]
      · rw [List.filter_cons_of_neg hpj, List.filter_cons_of_neg hpj, ih ht]

theorem sortDesc_filter (P : Issue → Bool) (l : List Issue) :
    sortDesc (l.filter P) = (sortDesc l).filter P := by
  induction l with
  | nil => rfl
  | cons x t ih =>
    rw [sortDesc]
    rw [filter_insDesc P x (sortDesc_pairwise t)]
    by_cases hp : P x
    · rw [if_pos hp, List.filter_cons_of_pos hp, sortDesc, ih]
    · rw [if_neg hp, List.filter_cons_of_neg hp, ih]

theorem foldl_guard {β : Type} (g : β → Issue → β) :
    ∀ (l : List Issue) (acc : β),
      l.foldl (fun acc i => if 0 ≤ i.position then g acc i else acc) acc
        = (l.filter (fun i => decide (0 ≤ i.position))).foldl g acc := by
  intro l
  induction l with
  | nil => intro acc; rfl
  | cons x t ih =>
    intro acc
    by_cases hp : 0 ≤ x.position
    · rw [List.foldl_cons, if_pos hp, List.filter_cons_of_pos (by simpa using hp),
        List.foldl_cons, ih]
    · rw [List.foldl_cons, if_neg hp, List.filter_cons_of_neg (by simpa using hp), ih]

/-!  Soundness lemmas for the company-pattern scanner. -/

theorem ciPrefix_take {a : Str} : ∀ {l : Str}, ciPrefix a l = true →
    ciEq a (l.take a.length) = true := by
  induction a with
  | nil => intro l _; rfl
  | cons x xs ih =>
    intro l hp
    cases l with
    | nil => simp [ciPrefix] at hp
    | cons y ys =>
      rw [ciPrefix, Bool.and_eq_true] at hp
      rw [List.length_cons, List.take_succ_cons, ciEq, Bool.and_eq_true]
      exact ⟨hp.1, ih hp.2⟩

theorem tryIndicators_sound {inds : List Str} {l ind : Str}
    (h : tryIndicators inds l = some ind) :
    (∃ i ∈ inds, ciEq i ind = true) ∧ ∃ n, ind = l.take n := by
  induction inds with
  | nil => simp [tryIndicators] at h
  | cons i rest ih =>
    rw [tryIndicators] at h
    by_cases hc : (ciPrefix i l &&
        (match l.drop i.length with
         | [] => true
         | a :: _ => !isWordChar a)) = true
    · rw [if_pos hc] at h
      cases h
      rw [Bool.and_eq_true] at hc
      refine ⟨⟨i, List.mem_cons_self i rest, ciPrefix_take hc.1⟩, i.length, rfl⟩
    · rw [if_neg hc] at h
      obtain ⟨⟨i2, hi2, hci⟩, n, hn⟩ := ih h
      exact ⟨⟨i2, List.mem_cons_of_mem i hi2, hci⟩, n, hn⟩

theorem tryCompany_sound {l m : Str} {k : Nat} (h : tryCompany l = some (m, k)) :
    m.isPrefixOf l = true
    ∧ ∃ w s ind, m = w ++ s ++ ind
        ∧ w ≠ [] ∧ (∀ c ∈ w, isWordChar c = true)
        ∧ s ≠ [] ∧ (∀ c ∈ s, isSpaceChar c = true)
        ∧ ∃ i ∈ companyIndicators, ciEq i ind = true := by
  rw [tryCompany] at h
  by_cases hw : (l.takeWhile isWordChar).isEmpty
  · rw [if_pos hw] at h; cases h
  · rw [if_neg hw] at h
    by_cases hs : ((l.dropWhile isWordChar).takeWhile isSpaceChar).isEmpty
    · rw [if_pos hs] at h; cases h
    · rw [if_neg hs] at h
      cases hind : tryIndicators companyIndicators
          ((l.dropWhile isWordChar).dropWhile isSpaceChar) with
      | none => rw [hind] at h; cases h
      | some ind =>
        rw [hind] at h
        cases h
        obtain ⟨hex, n, hn⟩ := tryIndicators_sound hind
        constructor
        · have h1 : ind.isPrefixOf
              ((l.dropWhile isWordChar).dropWhile isSpaceChar) = true := by
            rw [hn]; exact isPre_take n _
          have h2 : (((l.dropWhile isWordChar).takeWhile isSpaceChar) ++ ind).isPrefixOf
              (l.dropWhile isWordChar) = true := by
            have := isPre_append_left ((l.dropWhile isWordChar).takeWhile isSpaceChar) h1
            rwa [List.takeWhile_append_dropWhile] at this
          have h3 : ((l.takeWhile isWordChar) ++
              (((l.dropWhile isWordChar).takeWhile isSpaceChar) ++ ind)).isPrefixOf
              ((l.takeWhile isWordChar) ++ l.dropWhile isWordChar) = true :=
            isPre_append_left (l.takeWhile isWordChar) h2
          rwa [List.takeWhile_append_dropWhile, ← List.append_assoc] at h3
        · refine ⟨l.takeWhile isWordChar,
            (l.dropWhile isWordChar).takeWhile isSpaceChar, ind, rfl,
            ?_, ?_, ?_, ?_, hex⟩
          · intro hc; rw [hc] at hw; exact hw rfl
          · intro c hc; exact List.mem_takeWhile_imp hc
          · intro hc; rw [hc] at hs; exact hs rfl
          · intro c hc; exact List.mem_takeWhile_imp hc

theorem compScan_sound :
    ∀ (fuel : Nat) (b : Bool) (l m : Str), m ∈ compScan fuel b l →
      (∃ k, m.isPrefixOf (l.drop k) = true)
      ∧ ∃ w s ind, m = w ++ s ++ ind
          ∧ w ≠ [] ∧ (∀ c ∈ w, isWordChar c = true)
          ∧ s ≠ [] ∧ (∀ c ∈ s, isSpaceChar c = true)
          ∧ ∃ i ∈ companyIndicators, ciEq i ind = true := by
  intro fuel
  induction fuel with
  | zero => intro b l m hm; simp [compScan] at hm
  | succ f ih =>
    intro b l m hm
    cases l with
    | nil => simp [compScan] at hm
    | cons c rest =>
      rw [compScan] at hm
      by_cases hb : (!b && isWordChar c) = true
      · rw [if_pos hb] at hm
        cases htc : tryCompany (c :: rest) with
        | none =>
          rw [htc] at hm
          obtain ⟨⟨k, hk⟩, hshape⟩ := ih (isWordChar c) rest m hm
          exact ⟨⟨k + 1, by rwa [List.drop_succ_cons]⟩, hshape⟩
        | some mk =>
          obtain ⟨m0, k0⟩ := mk
          rw [htc] at hm
          simp only [List.mem_cons] at hm
          rcases hm with rfl | hm2
          · obtain ⟨hpre, hshape⟩ := tryCompany_sound htc
            exact ⟨⟨0, by simpa using hpre⟩, hshape⟩
          · obtain ⟨⟨k, hk⟩, hshape⟩ := ih true ((c :: rest).drop k0) m hm2
            rw [List.drop_drop] at hk
            exact ⟨⟨_, hk⟩, hshape⟩
      · rw [if_neg hb] at hm
        obtain ⟨⟨k, hk⟩, hshape⟩ := ih (isWordChar c) rest m hm
        exact ⟨⟨k + 1, by rwa [List.drop_succ_cons]⟩, hshape⟩

theorem companyMatches_sound {content m : Str} (hm : m ∈ companyMatches content) :
    (∃ k, m.isPrefixOf (content.drop k) = true)
    ∧ ∃ w s ind, m = w ++ s ++ ind
        ∧ w ≠ [] ∧ (∀ c ∈ w, isWordChar c = true)
        ∧ s ≠ [] ∧ (∀ c ∈ s, isSpaceChar c = true)
        ∧ ∃ i ∈ companyIndicators, ciEq i ind = true :=
  compScan_sound (content.length + 1) false content m hm

/-!  Characterization of the issues each detector can emit, and of the
final issue list of `analyzeContent`. -/

theorem mem_detectAndAdd {content : Str} {ms : List Str} {ty lvl : String} {f : Issue}
    (h : f ∈ detectAndAdd content ms ty lvl) :
    f.type = ty ∧ f.riskLevel = lvl ∧ f.detectionMethod = "pattern"
    ∧ f.position = strIndexOf content f.value ∧ f.value ∈ ms := by
  rw [detectAndAdd, List.mem_map] at h
  obtain ⟨m, hm, rfl⟩ := h
  exact ⟨rfl, rfl, rfl, rfl, hm⟩

theorem mem_companyFindings {content : Str} {f : Issue}
    (h : f ∈ companyFindings content) :
    f.type = "companyName" ∧ f.riskLevel = "MEDIUM" ∧ f.detectionMethod = "pattern"
    ∧ f.position = strIndexOf content f.value ∧ f.value ∈ companyMatches content := by
  rw [companyFindings, List.mem_map] at h
  obtain ⟨m, hm, rfl⟩ := h
  exact ⟨rfl, rfl, rfl, rfl, hm⟩

theorem mem_locationFindings {M : Matcher} {content : Str} {f : Issue}
    (h : f ∈ locationFindings M content) :
    f.type = "locationContext" ∧ f.riskLevel = "MEDIUM" ∧ f.detectionMethod = "pattern"
    ∧ f.position = strIndexOf content f.value
    ∧ f.value ∈ M PatternId.locationPattern content := by
  rw [locationFindings, List.mem_map] at h
  obtain ⟨m, hm, rfl⟩ := h
  exact ⟨rfl, rfl, rfl, rfl, hm⟩

/-- The fourteen issue types `detectPatternBasedIssues` can emit. -/
def patternTypes : List String :=
  ["email", "phone", "ssn", "creditCard", "bankAccount", "routingNumber",
   "currency", "address", "zipCode", "coordinates", "ipAddress", "apiKey",
   "companyName", "locationContext"]

theorem patternFindings_cases {M : Matcher} {content : Str} {f : Issue}
    (h : f ∈ patternFindings M content) :
    f.detectionMethod = "pattern"
    ∧ f.position = strIndexOf content f.value
    ∧ (f.riskLevel = "HIGH" ∨ f.riskLevel = "MEDIUM")
    ∧ f.type ∈ patternTypes
    ∧ (f.value ∈ companyMatches content ∨ ∃ p, f.value ∈ M p content) := by
  rw [patternFindings] at h
  simp only [List.append_assoc, List.mem_append] at h
  rcases h with h|h|h|h|h|h|h|h|h|h|h|h|h|h <;>
  first
  | · obtain ⟨ht, hr, hd, hp, hv⟩ := mem_detectAndAdd h
      first
      | exact ⟨hd, hp, Or.inl hr, by rw [ht]; decide, Or.inr ⟨_, hv⟩⟩
      | exact ⟨hd, hp, Or.inr hr, by rw [ht]; decide, Or.inr ⟨_, hv⟩⟩
  | · obtain ⟨ht, hr, hd, hp, hv⟩ := mem_companyFindings h
      exact ⟨hd, hp, Or.inr hr, by rw [ht]; decide, Or.inl hv⟩

/-- The five issue types `addAIDetectedIssues` can emit. -/
def aiTypes : List String :=
  ["personalName", "companyName", "financialInfo", "location", "confidentialInfo"]

theorem aiFindings_cases {content : Str} {x : AIAnalysis} {f : Issue}
    (h : f ∈ aiFindings content x) :
    f.detectionMethod = "ai"
    ∧ f.position = strIndexOf content f.value
    ∧ (f.riskLevel = "HIGH" ∨ f.riskLevel = "MEDIUM")
    ∧ f.type ∈ aiTypes := by
  rw [aiFindings] at h
  simp only [List.append_assoc, List.mem_append, List.mem_map] at h
  rcases h with h|h|h|h|h
  all_goals obtain ⟨m, hm, rfl⟩ := h
  all_goals exact ⟨rfl, rfl, by simp, by simp [aiTypes]⟩

/-- All issues of one analysis run, in insertion order. -/
def allFindings (M : Matcher) (ai : Option AIAnalysis) (content : Str) : List Issue :=
  patternFindings M content ++
    (match ai with
     | none => []
     | some x => aiFindings content x)

theorem analyzeContent_detectedIssues (M : Matcher) (ai : Option AIAnalysis) (content : Str) :
    (analyzeContent M ai content).detectedIssues = allFindings M ai content := by
  cases ai <;>
    simp [analyzeContent, analyzeWith, runSteps, analysisSteps, patternStep, aiStep,
      filterStep, riskStep, suggestStep, initialAnalysis, allFindings]

theorem analyzeContent_riskLevel (M : Matcher) (ai : Option AIAnalysis) (content : Str) :
    (analyzeContent M ai content).riskLevel
      = calculateRiskLevel (allFindings M ai content) := by
  cases ai <;>
    simp [analyzeContent, analyzeWith, runSteps, analysisSteps, patternStep, aiStep,
      filterStep, riskStep, suggestStep, initialAnalysis, allFindings]

theorem analyzeContent_filteredContent (M : Matcher) (ai : Option AIAnalysis) (content : Str) :
    (analyzeContent M ai content).filteredContent
      = (applyFilters content (allFindings M ai content)).1 := by
  cases ai <;>
    simp [analyzeContent, analyzeWith, runSteps, analysisSteps, patternStep, aiStep,
      filterStep, riskStep, suggestStep, initialAnalysis, allFindings]

theorem allFindings_cases {M : Matcher} {ai : Option AIAnalysis} {content : Str} {f : Issue}
    (h : f ∈ allFindings M ai content) :
    f.position = strIndexOf content f.value
    ∧ (f.riskLevel = "HIGH" ∨ f.riskLevel = "MEDIUM")
    ∧ (f.detectionMethod = "pattern" →
        (f.value ∈ companyMatches content ∨ ∃ p, f.value ∈ M p content))
    ∧ (f.detectionMethod = "pattern" ∨ f.detectionMethod = "ai") := by
  rw [allFindings.eq_def, List.mem_append] at h
  rcases h with h | h
  · obtain ⟨hd, hp, hr, -, hv⟩ := patternFindings_cases h
    exact ⟨hp, hr, fun _ => hv, Or.inl hd⟩
  · cases ai with
    | none => simp at h
    | some x =>
      obtain ⟨hd, hp, hr, -⟩ := aiFindings_cases h
      refine ⟨hp, hr, fun hpat => ?_, Or.inr hd⟩
      rw [hd] at hpat
      exact absurd hpat (by decide)

theorem calculateRiskLevel_low_iff {issues : List Issue}
    (hall : ∀ f ∈ issues, f.riskLevel = "HIGH" ∨ f.riskLevel = "MEDIUM") :
    calculateRiskLevel issues = "low" ↔ issues = [] := by
  constructor
  · intro hlow
    by_contra hne
    obtain ⟨g, hg⟩ := List.exists_mem_of_ne_nil issues hne
    rw [calculateRiskLevel] at hlow
    rcases hall g hg with h | h
    · have hpos : 0 < (issues.filter (fun i => decide (i.riskLevel = "HIGH"))).length :=
        List.length_pos.mpr (List.ne_nil_of_mem (List.mem_filter.mpr ⟨hg, by simp [h]⟩))
      rw [if_pos hpos] at hlow
      simp at hlow
    · have hpos : 0 < (issues.filter (fun i => decide (i.riskLevel = "MEDIUM"))).length :=
        List.length_pos.mpr (List.ne_nil_of_mem (List.mem_filter.mpr ⟨hg, by simp [h]⟩))
      split_ifs at hlow <;> simp_all
  · rintro rfl; rfl

/-!  Concrete matcher instances, recording the host regex engine's output
on the specific inputs used in the concrete theorems below. -/

/-- The matcher for the empty text: no pattern of the engine matches the
empty string (in JS, `"".match(p)` is `null` for every registry pattern),
so the engine's output is `[]` for every pattern.  Used only at inputs
where every pattern has no match. -/
def M0 : Matcher := fun _ _ => []

/-- The matcher recording the engine's output on the digit-only text
`"123456789"`: the two digit-run patterns `\b\d{8,17}\b` (bank account)
and `\b\d{9}\b` (routing number) are evaluated by the faithful scanner
`digitRunMatches`; every other pattern has no match on that text (it has
no `@`, no separator, no `$`, fewer than 20 characters, no letters and
no whitespace). -/
def M9 : Matcher
  | .bankAccount, c => digitRunMatches 8 17 c
  | .routingNumber, c => digitRunMatches 9 9 c
  | _, _ => []

/-- The bank-account issue the engine detects in `"123456789"`. -/
def bankIssue9 : Issue :=
  { type := "bankAccount", value := "123456789".data, riskLevel := "HIGH"
    position := 0, detectionMethod := "pattern" }

/-- The routing-number issue the engine detects in `"123456789"`. -/
def routingIssue9 : Issue :=
  { type := "routingNumber", value := "123456789".data, riskLevel := "HIGH"
    position := 0, detectionMethod := "pattern" }

/-!  The claims. -/

/-- C3.  `calculateRiskLevel` computes exactly the aggregate of the
specification: HIGH if any finding has severity HIGH; else HIGH if more
than one finding has severity MEDIUM; else MEDIUM if exactly one finding
has severity MEDIUM; else LOW. -/
theorem claim_C3 (issues : List Issue) : calculateRiskLevel issues = riskSpec issues := by
  rw [calculateRiskLevel, riskSpec]
  simp only [List.countP_eq_length_filter]
  have hany : issues.any (fun f => decide (f.riskLevel = "HIGH")) = true
      ↔ 0 < (issues.filter (fun i => decide (i.riskLevel = "HIGH"))).length := by
    rw [List.any_eq_true, List.length_pos]
    constructor
    · rintro ⟨f, hf, hdec⟩
      exact List.ne_nil_of_mem (List.mem_filter.mpr ⟨hf, hdec⟩)
    · intro hne
      obtain ⟨f, hf⟩ := List.exists_mem_of_ne_nil _ hne
      obtain ⟨h1, h2⟩ := List.mem_filter.mp hf
      exact ⟨f, h1, h2⟩
  by_cases h1 : issues.any (fun f => decide (f.riskLevel = "HIGH")) = true
  · rw [if_pos (hany.mp h1), if_pos h1]
  · rw [if_neg (fun hp => h1 (hany.mpr hp)), if_neg h1]
    by_cases h2 : 1 < (issues.filter (fun f => decide (f.riskLevel = "MEDIUM"))).length
    · rw [if_pos h2, if_pos h2]
    · rw [if_neg h2, if_neg h2]
      by_cases h3 : 0 < (issues.filter (fun f => decide (f.riskLevel = "MEDIUM"))).length
      · rw [if_pos h3, if_pos (by omega)]
      · rw [if_neg h3, if_neg (by omega)]

/-- C2.  `applyFilters` implements the redaction algorithm of the
specification: it is equal to sorting the findings with nonnegative
offset in stable descending-offset order and folding the replacement
`text[:offset] ++ placeholder ++ text[offset+len(value):]` over them
while recording `redaction_map[value] = placeholder` for each applied
replacement (`redactionSpec`); findings with offset `-1` have no effect
on the result; and they remain in `detectedIssues`, which is what the
aggregate risk level is computed from. -/
theorem claim_C2 (content : Str) (issues : List Issue) :
    applyFilters content issues = redactionSpec content issues
    ∧ applyFilters content issues
        = applyFilters content (issues.filter (fun i => decide (0 ≤ i.position)))
    ∧ ∀ (M : Matcher) (ai : Option AIAnalysis),
        (analyzeContent M ai content).riskLevel
          = calculateRiskLevel (analyzeContent M ai content).detectedIssues := by
  have key : ∀ js : List Issue, applyFilters content js = redactionSpec content js := by
    intro js
    rw [applyFilters, redactionSpec,
      foldl_guard (fun acc i => (applyOne acc.1 i, jsMapSet acc.2 i.value (getReplacementText i.type))),
      sortDesc_filter]
  refine ⟨key issues, ?_, ?_⟩
  · rw [key issues, key (issues.filter (fun i => decide (0 ≤ i.position)))]
    rw [redactionSpec, redactionSpec, List.filter_filter]
    simp [Bool.and_self]
  · intro M ai
    rw [analyzeContent_riskLevel, analyzeContent_detectedIssues]

/-- C4.  Two findings at the same (nonnegative) offset are applied in
encounter order, the second one operating on the already-modified text;
on the text `"123456789"` the bare 9-digit run is detected both as a bank
account and as a routing number at offset 0, and applying both
replacements in sequence yields the malformed output
`"[ROUTING_REDACTED]REDACTED]"`. -/
theorem claim_C4 :
    (∀ (content : Str) (i j : Issue), 0 ≤ i.position → i.position = j.position →
      (applyFilters content [i, j]).1 = applyOne (applyOne content i) j)
    ∧ (analyzeContent M9 none "123456789".data).detectedIssues = [bankIssue9, routingIssue9]
    ∧ bankIssue9.position = 0 ∧ routingIssue9.position = 0
    ∧ (analyzeContent M9 none "123456789".data).filteredContent
        = "[ROUTING_REDACTED]REDACTED]".data := by
  refine ⟨?_, by decide, by decide, by decide, by decide⟩
  intro content i j hpos heq
  have hsort : sortDesc [i, j] = [i, j] := by
    simp only [sortDesc, insDesc]
    rw [if_pos (le_of_eq heq.symm)]
  rw [applyFilters, hsort]
  simp only [List.foldl_cons, List.foldl_nil]
  rw [if_pos hpos, if_pos (heq ▸ hpos)]

/-- C4 witness: the generic equal-offset part of C4, instantiated with
the two concrete findings of `"123456789"`. -/
theorem claim_C4_witness :
    (applyFilters "123456789".data [bankIssue9, routingIssue9]).1
      = applyOne (applyOne "123456789".data bankIssue9) routingIssue9 :=
  claim_C4.1 "123456789".data bankIssue9 routingIssue9 (by decide) (by decide)

/-- C5.  `analyzeContent` never propagates an internal failure: whenever
some step of the pipeline throws, the facade returns the degraded result
`{ ...analysis, error: 'Privacy analysis failed', riskLevel: HIGH }`;
and the concrete `analyzeContent` is exactly this guarded pipeline run on
the five source steps. -/
theorem claim_C5 :
    (∀ (M : Matcher) (ai : Option AIAnalysis) (content : Str),
        analyzeContent M ai content = analyzeWith (analysisSteps M ai) content)
    ∧ ∀ (steps : List Step) (content : Str) (msg : String) (a : Analysis),
        runSteps steps (initialAnalysis content) = .err msg a →
          analyzeWith steps content
            = { a with error := some "Privacy analysis failed", riskLevel := "high" }
          ∧ (analyzeWith steps content).riskLevel = "high"
          ∧ (analyzeWith steps content).error ≠ none := by
  refine ⟨fun M ai content => rfl, ?_⟩
  intro steps content msg a h
  rw [analyzeWith, h]
  exact ⟨rfl, rfl, by simp⟩

/-- One always-throwing pipeline step, for the C5 witness. -/
def failingStep : Step := fun a => .err "boom" a

/-- C5 witness: a pipeline with a throwing step yields the degraded
HIGH-risk result with the error marker. -/
theorem claim_C5_witness :
    analyzeWith [failingStep] []
      = { initialAnalysis [] with error := some "Privacy analysis failed", riskLevel := "high" }
    ∧ (analyzeWith [failingStep] []).riskLevel = "high"
    ∧ (analyzeWith [failingStep] []).error ≠ none :=
  claim_C5.2 [failingStep] [] "boom" (initialAnalysis []) rfl

/-- C6.  Filtering in `filterContent` is enabled exactly when the
caller's enable flag (default true) holds and either the process-wide
flag or the caller's force flag holds; whenever this gate is off — in
particular whenever the caller passes `enablePrivacyFilter: false` — the
input text is returned unchanged with a `null` analysis. -/
theorem claim_C6 (envEnabled : Bool) (M : Matcher) (ai : Option AIAnalysis)
    (content : Str) (options : FilterOptions) :
    ((filterContent envEnabled M ai content options).privacyFilterEnabled
        = (options.enablePrivacyFilter && (envEnabled || options.forcePrivacyFilter)))
    ∧ ((options.enablePrivacyFilter && (envEnabled || options.forcePrivacyFilter)) = false →
        filterContent envEnabled M ai content options
          = { filteredContent := content, privacyAnalysis := none,
              privacyFilterEnabled := false })
    ∧ filterContent envEnabled M ai content { options with enablePrivacyFilter := false }
        = { filteredContent := content, privacyAnalysis := none,
            privacyFilterEnabled := false } := by
  refine ⟨?_, ?_, ?_⟩
  · rw [filterContent]
    by_cases h : (options.enablePrivacyFilter && (envEnabled || options.forcePrivacyFilter)) = true
    · rw [if_pos h]; exact h.symm
    · rw [if_neg h]
      simp only [Bool.not_eq_true] at h
      exact h.symm
  · intro h
    rw [filterContent, if_neg]
    rw [h]
    simp
  · rw [filterContent, if_neg]
    simp

/-- C6 witness: with the enable flag off, the force flag set and the
process-wide flag set, filtering is still disabled and the text comes
back unchanged with a `null` analysis. -/
theorem claim_C6_witness :
    filterContent true M0 none "a@b.co".data
        { enablePrivacyFilter := false, forcePrivacyFilter := true }
      = { filteredContent := "a@b.co".data, privacyAnalysis := none,
          privacyFilterEnabled := false } :=
  (claim_C6 true M0 none "a@b.co".data
    { enablePrivacyFilter := false, forcePrivacyFilter := true }).2.1 (by decide)

/-- C1 counterexample: the part of the claim asserting the substring
invariant "for every Finding reported before redaction" fails for
AI-sourced findings.  On the empty text, an oracle response naming
`"Bob"` produces a reported finding with offset `-1`, which is not a
valid index, and the asserted equation
`text[offset : offset+len(value)] == value` fails at it. -/
theorem claim_C1_counterexample :
    (analyzeContent M0 (some { personalNames := ["Bob".data] }) []).detectedIssues
      = [{ type := "personalName", value := "Bob".data, riskLevel := "HIGH",
           position := -1, detectionMethod := "ai" }]
    ∧ ((-1 : Int) < 0)
    ∧ (([] : Str).drop (Int.toNat (-1))).take "Bob".data.length ≠ "Bob".data := by
  refine ⟨by decide, by decide, by decide⟩

/-- C1 (amended).  Every finding of an analysis run has
`offset = original_text.indexOf(value)`; every finding emitted by a
pattern-based detector has a nonnegative offset (assuming, as the regex
engine guarantees, that every match it reports occurs in the text); and
for every finding with nonnegative offset — in particular every
pattern-based one — `text[offset : offset+len(value)] == value`.
AI-sourced findings whose value does not occur verbatim get offset `-1`
and are exempt from the substring invariant. -/
theorem claim_C1 (M : Matcher) (content : Str) (ai : Option AIAnalysis)
    (hM : ∀ p m, m ∈ M p content → ∃ k, m.isPrefixOf (content.drop k) = true) :
    ∀ f ∈ (analyzeContent M ai content).detectedIssues,
      f.position = strIndexOf content f.value
      ∧ (f.detectionMethod = "pattern" → 0 ≤ f.position)
      ∧ (0 ≤ f.position →
          (content.drop f.position.toNat).take f.value.length = f.value) := by
  intro f hf
  rw [analyzeContent_detectedIssues] at hf
  obtain ⟨hp, -, hpat, -⟩ := allFindings_cases hf
  refine ⟨hp, ?_, ?_⟩
  · intro hd
    rcases hpat hd with hv | ⟨p, hv⟩
    · rw [hp]
      exact strIndexOf_nonneg_of_found (companyMatches_sound hv).1
    · rw [hp]
      exact strIndexOf_nonneg_of_found (hM p _ hv)
  · intro hpos
    rw [hp] at hpos ⊢
    exact strIndexOf_nonneg_take hpos

/-- C1 witness: the amended statement applied to the bank-account finding
of `"123456789"`. -/
theorem claim_C1_witness :
    bankIssue9.position = strIndexOf "123456789".data bankIssue9.value
    ∧ (bankIssue9.detectionMethod = "pattern" → 0 ≤ bankIssue9.position)
    ∧ (0 ≤ bankIssue9.position →
        ("123456789".data.drop bankIssue9.position.toNat).take bankIssue9.value.length
          = bankIssue9.value) := by
  refine claim_C1 M9 "123456789".data none ?_ bankIssue9 ?_
  · intro p m hm
    cases p <;>
      first
      | (simp only [M9, List.not_mem_nil] at hm; done)
      | · have he : M9 PatternId.bankAccount "123456789".data = ["123456789".data] := by decide
          rw [he, List.mem_singleton] at hm
          subst hm
          exact ⟨0, by decide⟩
      | · have he : M9 PatternId.routingNumber "123456789".data = ["123456789".data] := by decide
          rw [he, List.mem_singleton] at hm
          subst hm
          exact ⟨0, by decide⟩
  · rw [analyzeContent_detectedIssues]
    decide

/-- A single currency-amount issue, as `detectAndAdd` emits for the text
`"$5"` (pattern `currency`, severity MEDIUM). -/
def currencyIssue : Issue :=
  { type := "currency", value := "$5".data, riskLevel := "MEDIUM"
    position := 0, detectionMethod := "pattern" }

/-- The analysis state reaching `generateSuggestions` for the text `"$5"`
with the single currency finding (aggregate risk medium). -/
def currencyAnalysis : Analysis :=
  { originalContent := "$5".data
    filteredContent := "[AMOUNT_REDACTED]".data
    detectedIssues := [currencyIssue]
    riskLevel := "medium"
    suggestions := []
    anonymizationMap := [("$5".data, "[AMOUNT_REDACTED]".data)]
    error := none }

/-- An analysis state reaching `generateSuggestions` with a single HIGH
email finding (aggregate risk high). -/
def emailAnalysis : Analysis :=
  { originalContent := "a@b.co".data
    filteredContent := "[EMAIL_REDACTED]".data
    detectedIssues := [{ type := "email", value := "a@b.co".data, riskLevel := "HIGH"
                         position := 0, detectionMethod := "pattern" }]
    riskLevel := "high"
    suggestions := []
    anonymizationMap := [("a@b.co".data, "[EMAIL_REDACTED]".data)]
    error := none }

/-- The finding the company-name detector emits on `"foo inc"`. -/
def fooIncIssue : Issue :=
  { type := "companyName", value := "foo inc".data, riskLevel := "MEDIUM"
    position := 0, detectionMethod := "pattern" }

/-- The AI finding produced on the empty text by an oracle response that
names `"Bob"`. -/
def bobIssue : Issue :=
  { type := "personalName", value := "Bob".data, riskLevel := "HIGH"
    position := -1, detectionMethod := "ai" }

/-- C7 counterexample: a `currency` finding is present (and is the only
distinct category), its severity MEDIUM makes the aggregate risk medium,
yet the static table has no `currency` entry, so the generated list
consists of the two medium-risk warnings only — no advisory is emitted
for this present category, contrary to the claim. -/
theorem claim_C7_counterexample :
    suggestionMap "currency" = none
    ∧ calculateRiskLevel [currencyIssue] = "medium"
    ∧ jsDedup (([currencyIssue] : List Issue).map (fun i => i.type)) = ["currency"]
    ∧ generateSuggestions currencyAnalysis = mediumRiskWarnings := by
  refine ⟨by decide, by decide, by decide, by decide⟩

/-- C7 (amended).  `generateSuggestions` emits the fixed advisory of every
distinct category present in the findings that has an entry in the static
table (the categories `routingNumber`, `currency`, `zipCode` and
`locationContext` have none and yield no advisory), appends the two fixed
high-risk warnings when the aggregate risk is high and the two fixed
medium-risk warnings when it is medium, and deduplicates the final list
preserving first-seen order (the result is a duplicate-free subsequence
of the pre-deduplication list, with exactly its members). -/
theorem claim_C7 (a : Analysis) :
    (∀ t s, t ∈ a.detectedIssues.map (fun i => i.type) → suggestionMap t = some s →
        s ∈ generateSuggestions a)
    ∧ (a.riskLevel = "high" → ∀ w ∈ highRiskWarnings, w ∈ generateSuggestions a)
    ∧ (a.riskLevel = "medium" → ∀ w ∈ mediumRiskWarnings, w ∈ generateSuggestions a)
    ∧ (generateSuggestions a).Nodup
    ∧ (generateSuggestions a).Sublist
        ((jsDedup (a.detectedIssues.map (fun i => i.type))).filterMap suggestionMap ++
          (if a.riskLevel = "high" then highRiskWarnings
           else if a.riskLevel = "medium" then mediumRiskWarnings else []))
    ∧ ∀ s ∈ generateSuggestions a,
        (∃ t ∈ a.detectedIssues.map (fun i => i.type), suggestionMap t = some s)
        ∨ (a.riskLevel = "high" ∧ s ∈ highRiskWarnings)
        ∨ (a.riskLevel = "medium" ∧ s ∈ mediumRiskWarnings) := by
  refine ⟨?_, ?_, ?_, ?_, ?_, ?_⟩
  · intro t s ht hs
    rw [generateSuggestions, jsDedup_mem, List.mem_append]
    exact Or.inl (List.mem_filterMap.mpr ⟨t, (jsDedup_mem _ t).mpr ht, hs⟩)
  · intro hr w hw
    rw [generateSuggestions, jsDedup_mem, List.mem_append]
    exact Or.inr (by rw [if_pos hr]; exact hw)
  · intro hr w hw
    have hne : a.riskLevel ≠ "high" := by rw [hr]; decide
    rw [generateSuggestions, jsDedup_mem, List.mem_append]
    exact Or.inr (by rw [if_neg hne, if_pos hr]; exact hw)
  · exact jsDedup_nodup _
  · exact jsDedup_sublist _
  · intro s hs
    rw [generateSuggestions, jsDedup_mem, List.mem_append] at hs
    rcases hs with hs | hs
    · obtain ⟨t, ht, hmap⟩ := List.mem_filterMap.mp hs
      exact Or.inl ⟨t, (jsDedup_mem _ t).mp ht, hmap⟩
    · by_cases h1 : a.riskLevel = "high"
      · rw [if_pos h1] at hs
        exact Or.inr (Or.inl ⟨h1, hs⟩)
      · rw [if_neg h1] at hs
        by_cases h2 : a.riskLevel = "medium"
        · rw [if_pos h2] at hs
          exact Or.inr (Or.inr ⟨h2, hs⟩)
        · rw [if_neg h2] at hs
          exact absurd hs (List.not_mem_nil s)

/-- C7 witness: on an analysis with one HIGH email finding, the amended
statement puts the email advisory in the generated list. -/
theorem claim_C7_witness :
    "Consider using a generic contact form instead of exposing email addresses"
      ∈ generateSuggestions emailAnalysis :=
  (claim_C7 emailAnalysis).1 "email"
    "Consider using a generic contact form instead of exposing email addresses"
    (by decide) (by decide)

/-- C8 counterexample: the company-name detector is not restricted to a
capitalized word followed by a verbatim suffix: on `"foo inc"` it matches
`"foo inc"` — the leading word is lowercase and the suffix `"inc"` is not
a verbatim member of the suffix vocabulary (the pattern is
case-insensitive). -/
theorem claim_C8_counterexample :
    companyFindings "foo inc".data = [fooIncIssue]
    ∧ "foo inc".data.head? = some 'f'
    ∧ 'f'.isUpper = false
    ∧ "inc".data ∉ companyIndicators := by
  refine ⟨by decide, by decide, by decide, by decide⟩

/-- C8 (amended).  Every finding of the organization-name detector has
severity MEDIUM and source `pattern`, and its value is a non-empty run of
word characters (of any capitalization), followed by whitespace, followed
by a case-insensitive occurrence of one of the fixed business-entity
suffixes. -/
theorem claim_C8 (content : Str) :
    ∀ f ∈ companyFindings content,
      f.riskLevel = "MEDIUM" ∧ f.detectionMethod = "pattern"
      ∧ ∃ w s ind, f.value = w ++ s ++ ind
          ∧ w ≠ [] ∧ (∀ c ∈ w, isWordChar c = true)
          ∧ s ≠ [] ∧ (∀ c ∈ s, isSpaceChar c = true)
          ∧ ∃ i ∈ companyIndicators, ciEq i ind = true := by
  intro f hf
  obtain ⟨-, hr, hd, -, hv⟩ := mem_companyFindings hf
  exact ⟨hr, hd, (companyMatches_sound hv).2⟩

/-- C8 witness: the amended statement applied to the finding the detector
emits on `"foo inc"`. -/
theorem claim_C8_witness :
    fooIncIssue.riskLevel = "MEDIUM" ∧ fooIncIssue.detectionMethod = "pattern"
    ∧ ∃ w s ind, fooIncIssue.value = w ++ s ++ ind
        ∧ w ≠ [] ∧ (∀ c ∈ w, isWordChar c = true)
        ∧ s ≠ [] ∧ (∀ c ∈ s, isSpaceChar c = true)
        ∧ ∃ i ∈ companyIndicators, ciEq i ind = true :=
  claim_C8 "foo inc".data fooIncIssue (by decide)

/-- C9.  Every finding any detector emits carries severity HIGH or
MEDIUM, so an analysis reports risk `low` exactly when it found nothing,
and `isContentSafe` holds exactly when the finding list is empty. -/
theorem claim_C9 (M : Matcher) (ai : Option AIAnalysis) (content : Str) :
    (∀ f ∈ (analyzeContent M ai content).detectedIssues,
        f.riskLevel = "HIGH" ∨ f.riskLevel = "MEDIUM")
    ∧ ((analyzeContent M ai content).riskLevel = "low"
        ↔ (analyzeContent M ai content).detectedIssues = [])
    ∧ (isContentSafe M ai content = true
        ↔ (analyzeContent M ai content).detectedIssues = []) := by
  have hall : ∀ f ∈ allFindings M ai content,
      f.riskLevel = "HIGH" ∨ f.riskLevel = "MEDIUM" :=
    fun f hf => (allFindings_cases hf).2.1
  refine ⟨?_, ?_, ?_⟩
  · intro f hf
    rw [analyzeContent_detectedIssues] at hf
    exact hall f hf
  · rw [analyzeContent_riskLevel, analyzeContent_detectedIssues]
    exact calculateRiskLevel_low_iff hall
  · rw [isContentSafe, beq_iff_eq, analyzeContent_riskLevel, analyzeContent_detectedIssues]
    exact calculateRiskLevel_low_iff hall

/-- C9 witness: the severity conjunct applied to the AI finding of the
empty-text run with the `"Bob"` oracle response. -/
theorem claim_C9_witness :
    bobIssue.riskLevel = "HIGH" ∨ bobIssue.riskLevel = "MEDIUM" :=
  (claim_C9 M0 (some { personalNames := ["Bob".data] }) []).1 bobIssue (by decide)

/-- C10.  The `possibleNames` pattern sits in the registry but
`detectPatternBasedIssues` never consults it: without an AI oracle no
finding of a person-name category is ever produced. -/
theorem claim_C10 :
    PatternId.possibleNames ∈ patternsRegistry
    ∧ ∀ (M : Matcher) (content : Str),
        ∀ f ∈ (analyzeContent M none content).detectedIssues,
          f.type ≠ "personalName" ∧ f.type ≠ "possibleNames" := by
  refine ⟨by decide, ?_⟩
  intro M content f hf
  rw [analyzeContent_detectedIssues, allFindings.eq_def] at hf
  simp only [List.append_nil] at hf
  obtain ⟨-, -, -, htype, -⟩ := patternFindings_cases hf
  constructor <;> intro hcontra <;> rw [hcontra] at htype <;> revert htype <;> decide

/-- C10 witness: the statement applied to the bank-account finding of the
pattern-only run on `"123456789"`. -/
theorem claim_C10_witness :
    bankIssue9.type ≠ "personalName" ∧ bankIssue9.type ≠ "possibleNames" :=
  claim_C10.2 M9 "123456789".data bankIssue9 (by decide)

end PrivacyFilterSpec
